import Mathlib

/-!
Verification development for the TOL Sales Targeting Dashboard (`app.py`).

The embedding models the parts of `app.py` that the properties below are
about: load-time numeric normalization (lines 12-16), the cascading
dropdown-option callbacks `update_district_options` (lines 104-108),
`update_subdistrict_options` (lines 114-120), `update_happyblock_options`
(lines 126-134), and the map callback `update_map` (lines 149-219), whose
filtering part is factored here as `filterRows` and whose rendering part
produces a `Scene`.

Rows are modelled with the columns the callbacks read: the four
hierarchical location keys, latitude/longitude, and the nine declared
numeric metric columns. Numeric values are modelled as rationals.
-/

namespace TOL

/-- Record model of one normalized row of the dataset: the four hierarchical
location keys, geolocation, and the nine numeric metric columns listed in
`numeric_cols` (`app.py` lines 12-14). -/
structure Row where
  province : String
  district : String
  subdistrict : String
  happyBlock : String
  latitude : ℚ
  longitude : ℚ
  netAdd : ℚ
  potentialScore : ℚ
  portUtilize : ℚ
  marketShareTrue : ℚ
  marketShareAIS : ℚ
  marketShare3BB : ℚ
  marketShareNT : ℚ
  l2Aging : ℚ
  portUse : ℚ
deriving DecidableEq, Repr

/-- Raw row as read from the CSV, before the numeric-normalization loop at
`app.py` lines 15-16. Each declared numeric cell is carried as the result of
`pd.to_numeric(..., errors=coerce)`: `some v` when the cell parses to the
number `v`, `none` when the cell is missing or unparseable (NaN after the
coercion). -/
structure RawRow where
  province : String
  district : String
  subdistrict : String
  happyBlock : String
  latitude : ℚ
  longitude : ℚ
  netAdd : Option ℚ
  potentialScore : Option ℚ
  portUtilize : Option ℚ
  marketShareTrue : Option ℚ
  marketShareAIS : Option ℚ
  marketShare3BB : Option ℚ
  marketShareNT : Option ℚ
  l2Aging : Option ℚ
  portUse : Option ℚ
deriving DecidableEq, Repr

/-- Embedding of `.fillna(0)` applied after `pd.to_numeric(..., errors=coerce)`:
a missing or unparseable cell becomes `0`, a parsed cell keeps its value
(`app.py` line 16). -/
def fillnaZero : Option ℚ → ℚ
  | some v => v
  | none => 0

/-- Normalization of one row by the loop at `app.py` lines 15-16: every
declared numeric column is coerced with unparseable/missing cells replaced
by zero; the non-numeric columns pass through unchanged. -/
def normalizeRow (r : RawRow) : Row :=
  ⟨r.province, r.district, r.subdistrict, r.happyBlock, r.latitude, r.longitude,
    fillnaZero r.netAdd, fillnaZero r.potentialScore, fillnaZero r.portUtilize,
    fillnaZero r.marketShareTrue, fillnaZero r.marketShareAIS,
    fillnaZero r.marketShare3BB, fillnaZero r.marketShareNT,
    fillnaZero r.l2Aging, fillnaZero r.portUse⟩

/-- Load-time normalization of the whole table (`app.py` lines 15-16): the
loop rewrites each numeric column in place, which row-wise is `normalizeRow`
applied to every row; no row is dropped. -/
def loadNormalize (raw : List RawRow) : List Row :=
  raw.map normalizeRow

/-- Truth test on a dropdown selection, embedding Python truthiness of the
callback argument (`if selected_province:` and the like): `None` and the
empty string are falsy, every other string is truthy. -/
def selTruthy : Option String → Bool
  | none => false
  | some s => !(s = "")

/-- Whether a row value passes one categorical selection: an unset or
empty-string selection constrains nothing, a truthy selection requires
equality with the selected value (the `filtered[filtered[col] == sel]`
steps guarded by `if sel:`). -/
def selMatches (sel : Option String) (v : String) : Bool :=
  match sel with
  | none => true
  | some s => if s = "" then true else v == s

/-- One guarded categorical filtering step of the callbacks: when the
selection is truthy the rows are restricted to those whose column equals it,
otherwise the rows are returned untouched (the filter is skipped, exactly as
the `if sel:` guard skips the indexing line). -/
def catFilter (sel : Option String) (get : Row → String) (l : List Row) : List Row :=
  match sel with
  | none => l
  | some s => if s = "" then l else l.filter fun r => get r == s

/-- Accumulator loop of `seriesUnique`: `seen` holds the values already
emitted; a value is emitted at its first occurrence only. -/
def seriesUniqueAux (seen : List String) : List String → List String
  | [] => []
  | a :: t => if a ∈ seen then seriesUniqueAux seen t else a :: seriesUniqueAux (a :: seen) t

/-- Embedding of the pandas `Series.unique()` projection used by the option
callbacks: the distinct values of a column in first-appearance order. -/
def seriesUnique (l : List String) : List String :=
  seriesUniqueAux [] l

/-- Index of the first occurrence of `x` in a list (length of the list when
absent); used to state first-appearance ordering. -/
def firstIdx (x : String) : List String → Nat
  | [] => 0
  | a :: t => if a = x then 0 else firstIdx x t + 1

/-- Callback `update_district_options` (`app.py` lines 104-108): with a
truthy province selection, the distinct districts of the rows of that
province; otherwise the empty option list. -/
def update_district_options (d : List Row) (selected_province : Option String) : List String :=
  if selTruthy selected_province then
    seriesUnique (((catFilter selected_province Row.province d)).map Row.district)
  else []

/-- Callback `update_subdistrict_options` (`app.py` lines 114-120): filters
by province then district, each step only when its selection is truthy, and
projects the distinct sub-districts. -/
def update_subdistrict_options (d : List Row) (selected_province selected_district : Option String) : List String :=
  seriesUnique ((catFilter selected_district Row.district
      (catFilter selected_province Row.province d)).map Row.subdistrict)

/-- Callback `update_happyblock_options` (`app.py` lines 126-134): filters
by province, district and sub-district, each step only when its selection is
truthy, and projects the distinct happy blocks. -/
def update_happyblock_options (d : List Row) (selected_province selected_district selected_subdistrict : Option String) : List String :=
  seriesUnique ((catFilter selected_subdistrict Row.subdistrict
      (catFilter selected_district Row.district
        (catFilter selected_province Row.province d))).map Row.happyBlock)

/-- FilterState: the snapshot of all filter controls passed to `update_map`
(`app.py` lines 149): one optional selection per hierarchical level and one
closed interval (the RangeSlider value pair) per range metric. -/
structure FilterState where
  province : Option String
  district : Option String
  subdistrict : Option String
  happyBlock : Option String
  netAddRange : ℚ × ℚ
  potentialScoreRange : ℚ × ℚ
  portUtilRange : ℚ × ℚ
  marketShareTrueRange : ℚ × ℚ
  l2AgingRange : ℚ × ℚ
deriving DecidableEq, Repr

/-- Combined range mask of `update_map` (`app.py` lines 161-172): the
conjunction of the ten inclusive bound comparisons applied to a row. -/
def rangesPred (fs : FilterState) (r : Row) : Bool :=
  decide (fs.netAddRange.1 ≤ r.netAdd) && decide (r.netAdd ≤ fs.netAddRange.2) &&
  decide (fs.potentialScoreRange.1 ≤ r.potentialScore) && decide (r.potentialScore ≤ fs.potentialScoreRange.2) &&
  decide (fs.portUtilRange.1 ≤ r.portUtilize) && decide (r.portUtilize ≤ fs.portUtilRange.2) &&
  decide (fs.marketShareTrueRange.1 ≤ r.marketShareTrue) && decide (r.marketShareTrue ≤ fs.marketShareTrueRange.2) &&
  decide (fs.l2AgingRange.1 ≤ r.l2Aging) && decide (r.l2Aging ≤ fs.l2AgingRange.2)

/-- Filtering part of `update_map` (`app.py` lines 150-172): the four
guarded categorical equality filters in hierarchy order followed by the
combined inclusive range mask. -/
def filterRows (d : List Row) (fs : FilterState) : List Row :=
  ((catFilter fs.happyBlock Row.happyBlock
      (catFilter fs.subdistrict Row.subdistrict
        (catFilter fs.district Row.district
          (catFilter fs.province Row.province d)))).filter (rangesPred fs))

/-- One plotted marker of the scatter-mapbox figure: position from
latitude/longitude, size from the Port Use column, color from the Potential
Score column (`app.py` lines 183-188). -/
structure Point where
  lat : ℚ
  lon : ℚ
  size : ℚ
  color : ℚ
deriving DecidableEq, Repr

/-- Scene: the figure returned by `update_map` — either the explicit
empty-data figure of lines 175-181 or a scatter figure with one point per
filtered row (lines 183-219). -/
inductive Scene where
  | noData (title : String)
  | mapScene (points : List Point) (title : String)
deriving DecidableEq, Repr

/-- Number of plotted points of a Scene: zero for the empty-data figure. -/
def Scene.numPoints : Scene → Nat
  | .noData _ => 0
  | .mapScene pts _ => pts.length

/-- Title of a Scene. -/
def Scene.sceneTitle : Scene → String
  | .noData t => t
  | .mapScene _ t => t

/-- Callback `update_map` (`app.py` lines 149-219): filter the dataset by
the full FilterState; if the result is empty return the explicit
no-data figure, otherwise the scatter figure over the filtered rows. -/
def update_map (d : List Row) (fs : FilterState) : Scene :=
  let filtered := filterRows d fs
  if filtered.isEmpty then Scene.noData "No data available"
  else Scene.mapScene (filtered.map fun r => ⟨r.latitude, r.longitude, r.portUse, r.potentialScore⟩)
    "Potential Score and Sales Insights"

/-- Comparison definition following the claim's words: `filterRows` with the
province constraint removed entirely (the province filtering step deleted,
everything else unchanged). -/
def filterRowsDropProvince (d : List Row) (fs : FilterState) : List Row :=
  ((catFilter fs.happyBlock Row.happyBlock
      (catFilter fs.subdistrict Row.subdistrict
        (catFilter fs.district Row.district d))).filter (rangesPred fs))

/-- Comparison definition following the claim's words: `filterRows` with the
district constraint removed entirely. -/
def filterRowsDropDistrict (d : List Row) (fs : FilterState) : List Row :=
  ((catFilter fs.happyBlock Row.happyBlock
      (catFilter fs.subdistrict Row.subdistrict
        (catFilter fs.province Row.province d))).filter (rangesPred fs))

/-- Comparison definition following the claim's words: `filterRows` with the
sub-district constraint removed entirely. -/
def filterRowsDropSubdistrict (d : List Row) (fs : FilterState) : List Row :=
  ((catFilter fs.happyBlock Row.happyBlock
      (catFilter fs.district Row.district
        (catFilter fs.province Row.province d))).filter (rangesPred fs))

/-- Comparison definition following the claim's words: `filterRows` with the
happy-block constraint removed entirely. -/
def filterRowsDropHappyBlock (d : List Row) (fs : FilterState) : List Row :=
  ((catFilter fs.subdistrict Row.subdistrict
      (catFilter fs.district Row.district
        (catFilter fs.province Row.province d))).filter (rangesPred fs))

/-- State-passing form of `update_map`: the callback's return value paired
with the dataset store after the call. The body of `update_map` binds its
working sequence to a copy (`data.copy()`, line 150) and only ever rebinds
that local; the store itself is never assigned, so the second component is
the store the callback was entered with. -/
def update_map_state (d : List Row) (fs : FilterState) : Scene × List Row :=
  let filtered := filterRows d fs
  (if filtered.isEmpty then Scene.noData "No data available"
   else Scene.mapScene (filtered.map fun r => ⟨r.latitude, r.longitude, r.portUse, r.potentialScore⟩)
     "Potential Score and Sales Insights", d)

/-- State-passing form of `update_district_options`: return value paired
with the dataset store after the call (the callback only reads the store). -/
def update_district_options_state (d : List Row) (sp : Option String) : List String × List Row :=
  (update_district_options d sp, d)

/-- State-passing form of `update_subdistrict_options`: return value paired
with the dataset store after the call (the callback filters a copy). -/
def update_subdistrict_options_state (d : List Row) (sp sd : Option String) : List String × List Row :=
  (update_subdistrict_options d sp sd, d)

/-- State-passing form of `update_happyblock_options`: return value paired
with the dataset store after the call (the callback filters a copy). -/
def update_happyblock_options_state (d : List Row) (sp sd ss : Option String) : List String × List Row :=
  (update_happyblock_options d sp sd ss, d)

/-- Example row used by scenario and witness theorems. -/
def exRow : Row :=
  ⟨"p", "d", "s", "h", 10, 20, 0, 50, 50, 50, 0, 0, 0, 6, 1⟩

/-- Example one-row dataset used by scenario and witness theorems. -/
def exDataset : List Row := [exRow]

/-- FilterState with no categorical selection and wide ranges. -/
def wideFS : FilterState :=
  ⟨none, none, none, none, (0, 100), (0, 100), (0, 100), (0, 100), (0, 100)⟩

/-- FilterState selecting a province absent from `exDataset`, with wide
ranges: its filtered row set is empty. -/
def noMatchFS : FilterState :=
  ⟨some "z", none, none, none, (0, 100), (0, 100), (0, 100), (0, 100), (0, 100)⟩

/-- Row of the aging scenario: all categorical keys and metrics fixed, the
L2 aging value given. -/
def agingRow (q : ℚ) : Row :=
  ⟨"p", "d", "s", "h", 10, 20, 0, 50, 50, 50, 0, 0, 0, q, 1⟩

/-- Dataset of the aging scenario: four rows with aging values 0, 5, 12, 13. -/
def agingRows : List Row := [agingRow 0, agingRow 5, agingRow 12, agingRow 13]

/-- FilterState of the aging scenario: no categorical selection, wide ranges
on every metric except the aging bounds [0, 12]. -/
def agingFS : FilterState :=
  ⟨none, none, none, none, (0, 100), (0, 100), (0, 100), (0, 100), (0, 12)⟩

/-- Example raw row with every declared numeric cell missing/unparseable. -/
def exRawRow : RawRow :=
  ⟨"p", "d", "s", "h", 10, 20, none, none, none, none, none, none, none, none, none⟩

/-! Helper lemmas. -/

/-- A guarded categorical step is the filter by its selection predicate. -/
theorem catFilter_eq_filter (sel : Option String) (get : Row → String) (l : List Row) :
    catFilter sel get l = l.filter fun r => selMatches sel (get r) := by
  cases sel with
  | none => simp [catFilter, selMatches]
  | some s =>
    by_cases hs : s = "" <;> simp [catFilter, selMatches, hs]

/-- Membership in a guarded categorical step. -/
theorem mem_catFilter {sel : Option String} {get : Row → String} {l : List Row} {r : Row} :
    r ∈ catFilter sel get l ↔ r ∈ l ∧ selMatches sel (get r) := by
  rw [catFilter_eq_filter]
  exact List.mem_filter

/-- Membership in the accumulator loop of `seriesUnique`: exactly the values
of the remaining list not yet seen. -/
theorem mem_seriesUniqueAux :
    ∀ (t seen : List String) (b : String), b ∈ seriesUniqueAux seen t ↔ b ∈ t ∧ b ∉ seen := by
  intro t
  induction t with
  | nil => intro seen b; simp [seriesUniqueAux]
  | cons a t ih =>
    intro seen b
    by_cases h : a ∈ seen
    · rw [seriesUniqueAux, if_pos h, ih]
      simp only [List.mem_cons]
      constructor
      · exact fun hb => ⟨Or.inr hb.1, hb.2⟩
      · rintro ⟨rfl | hb, hs⟩
        · exact absurd h hs
        · exact ⟨hb, hs⟩
    · rw [seriesUniqueAux, if_neg h]
      simp only [List.mem_cons, ih]
      constructor
      · rintro (rfl | ⟨hb, hs⟩)
        · exact ⟨Or.inl rfl, h⟩
        · exact ⟨Or.inr hb, fun hc => hs (Or.inr hc)⟩
      · rintro ⟨hba | hb, hs⟩
        · exact Or.inl hba
        · by_cases hba : b = a
          · exact Or.inl hba
          · exact Or.inr ⟨hb, fun hc => hc.elim hba hs⟩

/-- The accumulator loop of `seriesUnique` emits no duplicates. -/
theorem seriesUniqueAux_nodup : ∀ (t seen : List String), (seriesUniqueAux seen t).Nodup := by
  intro t
  induction t with
  | nil => intro seen; simp [seriesUniqueAux]
  | cons a t ih =>
    intro seen
    by_cases h : a ∈ seen
    · rw [seriesUniqueAux, if_pos h]; exact ih seen
    · rw [seriesUniqueAux, if_neg h]
      refine List.nodup_cons.mpr ⟨fun hmem => ?_, ih (a :: seen)⟩
      exact ((mem_seriesUniqueAux t (a :: seen) a).1 hmem).2 (List.mem_cons_self a seen)

/-- First-occurrence index at the head. -/
theorem firstIdx_cons_self (a : String) (t : List String) : firstIdx a (a :: t) = 0 := by
  simp [firstIdx]

/-- First-occurrence index past a head of a different value. -/
theorem firstIdx_cons_ne {a x : String} (t : List String) (h : a ≠ x) :
    firstIdx x (a :: t) = firstIdx x t + 1 := by
  simp [firstIdx, h]

/-- The accumulator loop of `seriesUnique` lists values in first-appearance
order of the remaining list. -/
theorem seriesUniqueAux_pairwise :
    ∀ (t seen : List String),
      (seriesUniqueAux seen t).Pairwise fun x y => firstIdx x t < firstIdx y t := by
  intro t
  induction t with
  | nil => intro seen; simp [seriesUniqueAux]
  | cons a t ih =>
    intro seen
    by_cases h : a ∈ seen
    · rw [seriesUniqueAux, if_pos h]
      refine List.Pairwise.imp_of_mem ?_ (ih seen)
      intro x y hx hy hxy
      have hxa : x ≠ a := fun e => ((mem_seriesUniqueAux t seen x).1 hx).2 (e ▸ h)
      have hya : y ≠ a := fun e => ((mem_seriesUniqueAux t seen y).1 hy).2 (e ▸ h)
      rw [firstIdx_cons_ne t (Ne.symm hxa), firstIdx_cons_ne t (Ne.symm hya)]
      omega
    · rw [seriesUniqueAux, if_neg h]
      refine List.pairwise_cons.mpr ⟨fun b hb => ?_, ?_⟩
      · have hba : b ≠ a := fun e =>
          ((mem_seriesUniqueAux t (a :: seen) b).1 hb).2 (by simp [e])
        rw [firstIdx_cons_self, firstIdx_cons_ne t (Ne.symm hba)]
        omega
      · refine List.Pairwise.imp_of_mem ?_ (ih (a :: seen))
        intro x y hx hy hxy
        have hxa : x ≠ a := fun e =>
          ((mem_seriesUniqueAux t (a :: seen) x).1 hx).2 (by simp [e])
        have hya : y ≠ a := fun e =>
          ((mem_seriesUniqueAux t (a :: seen) y).1 hy).2 (by simp [e])
        rw [firstIdx_cons_ne t (Ne.symm hxa), firstIdx_cons_ne t (Ne.symm hya)]
        omega

/-- Membership in `seriesUnique`: exactly the values of the input. -/
theorem mem_seriesUnique {l : List String} {b : String} : b ∈ seriesUnique l ↔ b ∈ l := by
  simp [seriesUnique, mem_seriesUniqueAux]

/-- `seriesUnique` emits no duplicates. -/
theorem seriesUnique_nodup (l : List String) : (seriesUnique l).Nodup :=
  seriesUniqueAux_nodup l []

/-- `seriesUnique` lists values in first-appearance order of the input. -/
theorem seriesUnique_pairwise (l : List String) :
    (seriesUnique l).Pairwise fun x y => firstIdx x l < firstIdx y l :=
  seriesUniqueAux_pairwise l []

/-- `filterRows` is a single filter of the dataset by the combined
categorical-and-range predicate. -/
theorem filterRows_eq_filter (d : List Row) (fs : FilterState) :
    filterRows d fs = d.filter fun r =>
      rangesPred fs r &&
        (selMatches fs.happyBlock r.happyBlock &&
          (selMatches fs.subdistrict r.subdistrict &&
            (selMatches fs.district r.district && selMatches fs.province r.province))) := by
  simp only [filterRows, catFilter_eq_filter, List.filter_filter]

/-- Membership in `filterRows`: a row of the dataset passing the four
categorical selections and the ten inclusive range bounds. -/
theorem mem_filterRows {d : List Row} {fs : FilterState} {r : Row} :
    r ∈ filterRows d fs ↔
      r ∈ d ∧ selMatches fs.province r.province ∧ selMatches fs.district r.district ∧
        selMatches fs.subdistrict r.subdistrict ∧ selMatches fs.happyBlock r.happyBlock ∧
        (fs.netAddRange.1 ≤ r.netAdd ∧ r.netAdd ≤ fs.netAddRange.2) ∧
        (fs.potentialScoreRange.1 ≤ r.potentialScore ∧ r.potentialScore ≤ fs.potentialScoreRange.2) ∧
        (fs.portUtilRange.1 ≤ r.portUtilize ∧ r.portUtilize ≤ fs.portUtilRange.2) ∧
        (fs.marketShareTrueRange.1 ≤ r.marketShareTrue ∧ r.marketShareTrue ≤ fs.marketShareTrueRange.2) ∧
        (fs.l2AgingRange.1 ≤ r.l2Aging ∧ r.l2Aging ≤ fs.l2AgingRange.2) := by
  simp only [filterRows, List.mem_filter, mem_catFilter, rangesPred, Bool.and_eq_true,
    decide_eq_true_eq]
  tauto

/-- A guarded categorical step returns a sublist of its input. -/
theorem catFilter_sublist (sel : Option String) (get : Row → String) (l : List Row) :
    List.Sublist (catFilter sel get l) l := by
  rw [catFilter_eq_filter]
  exact List.filter_sublist l

/-! Claim theorems. -/

/-- C1 counterexample: on a one-row dataset, the district option list with
no province selected is the empty list, not the distinct district values of
the entire dataset, refuting the claim as stated. -/
theorem C1_district_no_selection_counterexample :
    update_district_options exDataset none ≠ seriesUnique (exDataset.map Row.district) ∧
      update_district_options exDataset none = [] := by
  refine ⟨by decide, rfl⟩

/-- C1 (amended): for the sub-district and happy-block option lists, a
missing ancestor selection applies no restriction at that level (with no
selections at all, the distinct values of the entire dataset are returned);
the district option list, however, is empty whenever no province is
selected. -/
theorem C1_no_ancestor_selection_amended :
    ∀ (d : List Row) (sd ss : Option String),
      update_district_options d none = [] ∧
      update_subdistrict_options d none none = seriesUnique (d.map Row.subdistrict) ∧
      update_subdistrict_options d none sd =
        seriesUnique ((catFilter sd Row.district d).map Row.subdistrict) ∧
      update_happyblock_options d none none none = seriesUnique (d.map Row.happyBlock) ∧
      update_happyblock_options d none none ss =
        seriesUnique ((catFilter ss Row.subdistrict d).map Row.happyBlock) := by
  intro d sd ss
  exact ⟨rfl, rfl, rfl, rfl, rfl⟩

/-- C2: whenever the filtered row set is empty, `update_map` returns the
explicit empty scene titled "No data available" with zero plotted points,
not an error. -/
theorem C2_empty_filter_noData (d : List Row) (fs : FilterState)
    (h : filterRows d fs = []) :
    update_map d fs = Scene.noData "No data available" ∧
      (update_map d fs).numPoints = 0 := by
  constructor <;> simp [update_map, h, Scene.numPoints]

/-- C2 witness: a concrete dataset and FilterState with an empty filtered
row set, on which `update_map` produces the empty scene. -/
theorem C2_empty_filter_noData_witness :
    update_map exDataset noMatchFS = Scene.noData "No data available" ∧
      (update_map exDataset noMatchFS).numPoints = 0 :=
  C2_empty_filter_noData exDataset noMatchFS (by decide)

/-- C3: every range filter of `filterRows` is inclusive at both ends — a
row is kept exactly when each metric satisfies `lo ≤ value ∧ value ≤ hi` —
and on the aging scenario the bounds [0, 12] applied to rows with aging
values 0, 5, 12, 13 keep exactly the rows with values 0, 5 and 12. -/
theorem C3_range_bounds_inclusive :
    (∀ (d : List Row) (fs : FilterState) (r : Row),
      r ∈ filterRows d fs ↔
        r ∈ d ∧ selMatches fs.province r.province ∧ selMatches fs.district r.district ∧
          selMatches fs.subdistrict r.subdistrict ∧ selMatches fs.happyBlock r.happyBlock ∧
          (fs.netAddRange.1 ≤ r.netAdd ∧ r.netAdd ≤ fs.netAddRange.2) ∧
          (fs.potentialScoreRange.1 ≤ r.potentialScore ∧ r.potentialScore ≤ fs.potentialScoreRange.2) ∧
          (fs.portUtilRange.1 ≤ r.portUtilize ∧ r.portUtilize ≤ fs.portUtilRange.2) ∧
          (fs.marketShareTrueRange.1 ≤ r.marketShareTrue ∧ r.marketShareTrue ≤ fs.marketShareTrueRange.2) ∧
          (fs.l2AgingRange.1 ≤ r.l2Aging ∧ r.l2Aging ≤ fs.l2AgingRange.2)) ∧
    filterRows agingRows agingFS = [agingRow 0, agingRow 5, agingRow 12] := by
  exact ⟨fun d fs r => mem_filterRows, by decide⟩

/-- C4: each downstream option list contains exactly the values of its
column co-occurring with the ancestor selections in some row of the dataset
(soundness and completeness), without duplicates, listed in first-appearance
order of the matching rows. -/
theorem C4_options_sound_complete_ordered :
    ∀ (d : List Row) (sp sd ss : Option String),
      ((update_happyblock_options d sp sd ss).Nodup ∧
        (∀ v, v ∈ update_happyblock_options d sp sd ss ↔
          ∃ r, r ∈ d ∧ selMatches sp r.province ∧ selMatches sd r.district ∧
            selMatches ss r.subdistrict ∧ r.happyBlock = v) ∧
        (update_happyblock_options d sp sd ss).Pairwise fun a b =>
          firstIdx a ((catFilter ss Row.subdistrict (catFilter sd Row.district
            (catFilter sp Row.province d))).map Row.happyBlock) <
          firstIdx b ((catFilter ss Row.subdistrict (catFilter sd Row.district
            (catFilter sp Row.province d))).map Row.happyBlock)) ∧
      ((update_subdistrict_options d sp sd).Nodup ∧
        (∀ v, v ∈ update_subdistrict_options d sp sd ↔
          ∃ r, r ∈ d ∧ selMatches sp r.province ∧ selMatches sd r.district ∧
            r.subdistrict = v) ∧
        (update_subdistrict_options d sp sd).Pairwise fun a b =>
          firstIdx a ((catFilter sd Row.district (catFilter sp Row.province d)).map Row.subdistrict) <
          firstIdx b ((catFilter sd Row.district (catFilter sp Row.province d)).map Row.subdistrict)) := by
  intro d sp sd ss
  refine ⟨⟨seriesUnique_nodup _, fun v => ?_, seriesUnique_pairwise _⟩,
    ⟨seriesUnique_nodup _, fun v => ?_, seriesUnique_pairwise _⟩⟩
  · simp only [update_happyblock_options, mem_seriesUnique, List.mem_map, mem_catFilter]
    exact exists_congr fun r => by tauto
  · simp only [update_subdistrict_options, mem_seriesUnique, List.mem_map, mem_catFilter]
    exact exists_congr fun r => by tauto

/-- C5: `filterRows` is idempotent — filtering an already-filtered result by
the same FilterState returns the same sequence. -/
theorem C5_filterRows_idempotent :
    ∀ (d : List Row) (fs : FilterState), filterRows (filterRows d fs) fs = filterRows d fs := by
  intro d fs
  rw [filterRows_eq_filter (filterRows d fs) fs, filterRows_eq_filter d fs]
  exact List.filter_eq_self.mpr fun a ha => (List.mem_filter.mp ha).2

/-- C6: leaving a categorical selection unset makes that constraint
always-true — `filterRows` then returns the same rows as the variant with
that constraint removed entirely, at every hierarchical level. -/
theorem C6_unset_categorical_inert :
    ∀ (d : List Row) (pr di su hb : Option String) (r1 r2 r3 r4 r5 : ℚ × ℚ),
      filterRows d ⟨none, di, su, hb, r1, r2, r3, r4, r5⟩ =
        filterRowsDropProvince d ⟨none, di, su, hb, r1, r2, r3, r4, r5⟩ ∧
      filterRows d ⟨pr, none, su, hb, r1, r2, r3, r4, r5⟩ =
        filterRowsDropDistrict d ⟨pr, none, su, hb, r1, r2, r3, r4, r5⟩ ∧
      filterRows d ⟨pr, di, none, hb, r1, r2, r3, r4, r5⟩ =
        filterRowsDropSubdistrict d ⟨pr, di, none, hb, r1, r2, r3, r4, r5⟩ ∧
      filterRows d ⟨pr, di, su, none, r1, r2, r3, r4, r5⟩ =
        filterRowsDropHappyBlock d ⟨pr, di, su, none, r1, r2, r3, r4, r5⟩ := by
  intro d pr di su hb r1 r2 r3 r4 r5
  exact ⟨rfl, rfl, rfl, rfl⟩

/-- C7: load-time normalization coerces every declared numeric column,
replacing each missing or unparseable cell by zero, and drops no row (the
normalization is total, so the load cannot fail on a non-numeric cell). -/
theorem C7_load_normalization :
    ∀ raw : List RawRow,
      (loadNormalize raw).length = raw.length ∧
      ∀ r ∈ raw,
        (r.netAdd = none → (normalizeRow r).netAdd = 0) ∧
        (r.potentialScore = none → (normalizeRow r).potentialScore = 0) ∧
        (r.portUtilize = none → (normalizeRow r).portUtilize = 0) ∧
        (r.marketShareTrue = none → (normalizeRow r).marketShareTrue = 0) ∧
        (r.marketShareAIS = none → (normalizeRow r).marketShareAIS = 0) ∧
        (r.marketShare3BB = none → (normalizeRow r).marketShare3BB = 0) ∧
        (r.marketShareNT = none → (normalizeRow r).marketShareNT = 0) ∧
        (r.l2Aging = none → (normalizeRow r).l2Aging = 0) ∧
        (r.portUse = none → (normalizeRow r).portUse = 0) := by
  intro raw
  refine ⟨List.length_map raw normalizeRow, fun r _ => ?_⟩
  refine ⟨?_, ?_, ?_, ?_, ?_, ?_, ?_, ?_, ?_⟩ <;>
    exact fun h => by simp [normalizeRow, h, fillnaZero]

/-- C7 witness: a concrete raw row with every declared numeric cell missing
is normalized to zeros and the one-row load keeps one row. -/
theorem C7_load_normalization_witness :
    (loadNormalize [exRawRow]).length = 1 ∧
      (normalizeRow exRawRow).netAdd = 0 ∧
      (normalizeRow exRawRow).potentialScore = 0 ∧
      (normalizeRow exRawRow).portUtilize = 0 ∧
      (normalizeRow exRawRow).marketShareTrue = 0 ∧
      (normalizeRow exRawRow).marketShareAIS = 0 ∧
      (normalizeRow exRawRow).marketShare3BB = 0 ∧
      (normalizeRow exRawRow).marketShareNT = 0 ∧
      (normalizeRow exRawRow).l2Aging = 0 ∧
      (normalizeRow exRawRow).portUse = 0 := by
  have h := C7_load_normalization [exRawRow]
  have hm := h.2 exRawRow (List.mem_singleton.mpr rfl)
  exact ⟨h.1, hm.1 rfl, hm.2.1 rfl, hm.2.2.1 rfl, hm.2.2.2.1 rfl, hm.2.2.2.2.1 rfl,
    hm.2.2.2.2.2.1 rfl, hm.2.2.2.2.2.2.1 rfl, hm.2.2.2.2.2.2.2.1 rfl, hm.2.2.2.2.2.2.2.2 rfl⟩

/-- C8: `filterRows` is a stable filter — its result is a subsequence of
the dataset in the dataset's original row order. -/
theorem C8_filterRows_stable_sublist :
    ∀ (d : List Row) (fs : FilterState), List.Sublist (filterRows d fs) d := by
  intro d fs
  exact (List.filter_sublist _).trans ((catFilter_sublist _ _ _).trans
    ((catFilter_sublist _ _ _).trans ((catFilter_sublist _ _ _).trans
      (catFilter_sublist _ _ _))))

/-- C9: no per-user callback mutates the shared dataset — in state-passing
form, each callback returns the dataset store unchanged alongside its
result. -/
theorem C9_no_dataset_mutation :
    ∀ (d : List Row) (fs : FilterState) (sp sd ss : Option String),
      (update_map_state d fs).2 = d ∧
      (update_district_options_state d sp).2 = d ∧
      (update_subdistrict_options_state d sp sd).2 = d ∧
      (update_happyblock_options_state d sp sd ss).2 = d := by
  intro d fs sp sd ss
  exact ⟨rfl, rfl, rfl, rfl⟩

/-- C10: a categorical selection equal to the empty string is treated
exactly like no selection, both in `filterRows` and in the option-list
callbacks, because selections are tested for truthiness. -/
theorem C10_empty_string_selection_inert :
    ∀ (d : List Row) (di su hb : Option String) (r1 r2 r3 r4 r5 : ℚ × ℚ),
      filterRows d ⟨some "", di, su, hb, r1, r2, r3, r4, r5⟩ =
        filterRows d ⟨none, di, su, hb, r1, r2, r3, r4, r5⟩ ∧
      update_district_options d (some "") = update_district_options d none ∧
      update_subdistrict_options d (some "") di = update_subdistrict_options d none di ∧
      update_happyblock_options d (some "") di su = update_happyblock_options d none di su := by
  intro d di su hb r1 r2 r3 r4 r5
  exact ⟨rfl, rfl, rfl, rfl⟩

end TOL
